import Mathlib

/-!
# md2html: a verification development

Shallow embedding of `src/utils/md2html/md2html.go` (functions `fileExists`,
`printHelp`, `main`) together with a small model of the parts of the Go
standard library and of the operating system that the program calls
(`os.Stat`, `os.ReadFile`, `os.OpenFile`, writes through a file handle,
`path.Split`).

Conventions of the embedding
* Go strings (paths, messages) are Lean `String`s; `path.Split` looks for the
  byte `/`, which in UTF-8 never occurs inside a multi-byte character, so
  scanning characters and scanning bytes find the same position.
* File contents are byte lists.
* `markdown.ToHTML(md, nil, nil)` belongs to an external library; it is a
  parameter `toHTML : Bytes → Bytes` of `main` (the program treats it as a
  total function).
* A run is a function from the argument vector and the file system before the
  run to a `Run` record: exit status, lines printed on standard output,
  messages on standard error, the sequence of file-system calls made, and the
  file system after the run.
* A write through an opened handle is taken to succeed in full (the program
  itself ignores the error results of `Fprint` and `Flush`).
-/

namespace Md2html

/-- Contents of a file. -/
abbrev Bytes := List UInt8

/-- Error numbers the modelled calls can report. -/
inductive Errno
  | ENOENT
  | EACCES
  | EISDIR
  deriving DecidableEq, Repr

/-- What a path names in the file system.
* `missing creatable`: nothing is there (`ENOENT`); `creatable` says whether a
  file may be created at the path (the parent directory exists and is
  writable).
* `inaccessible`: path resolution fails for a reason other than not-found
  (search permission on a directory of the path is denied), so every call on
  the path fails.
* `dir`: a directory.
* `file content readable writable`: a regular file with the permissions the
  calling process has on it. -/
inductive Node
  | missing (creatable : Bool)
  | inaccessible
  | dir
  | file (content : Bytes) (readable writable : Bool)
  deriving DecidableEq

/-- File system state: what every path names. -/
abbrev FS := String → Node

/-- File system with the node at `name` replaced. -/
def FS.set (fs : FS) (name : String) (n : Node) : FS :=
  fun p => if p = name then n else fs p

/-- Model of `os.Stat`: the error result (`FileInfo` is discarded by the caller). -/
def stat (fs : FS) (name : String) : Except Errno Unit :=
  match fs name with
  | .missing _ => .error .ENOENT
  | .inaccessible => .error .EACCES
  | .dir => .ok ()
  | .file _ _ _ => .ok ()

/-- Model of `os.ReadFile`. -/
def readFile (fs : FS) (name : String) : Except Errno Bytes :=
  match fs name with
  | .missing _ => .error .ENOENT
  | .inaccessible => .error .EACCES
  | .dir => .error .EISDIR
  | .file c r _ => if r then .ok c else .error .EACCES

/-- Constant `os.O_RDONLY`. -/
def O_RDONLY : Nat := 0x0
/-- Constant `os.O_WRONLY`. -/
def O_WRONLY : Nat := 0x1
/-- Constant `os.O_RDWR`. -/
def O_RDWR : Nat := 0x2
/-- Constant `os.O_CREATE` (Linux value). -/
def O_CREATE : Nat := 0x40
/-- Constant `os.O_TRUNC` (Linux value). -/
def O_TRUNC : Nat := 0x200
/-- Constant `os.O_APPEND` (Linux value). -/
def O_APPEND : Nat := 0x400

/-- Whether the bit `bit` is set in `flag`. -/
def hasFlag (flag bit : Nat) : Bool := flag &&& bit != 0

/-- Whether the access mode of `flag` asks for writing. -/
def wantsWrite (flag : Nat) : Bool := flag &&& 3 == O_WRONLY || flag &&& 3 == O_RDWR

/-- Whether the access mode of `flag` asks for reading. -/
def wantsRead (flag : Nat) : Bool := flag &&& 3 == O_RDONLY || flag &&& 3 == O_RDWR

/-- An open file: the path it was opened at, the current offset, and whether
writes go to the end of the file (`O_APPEND`). -/
structure Handle where
  name : String
  offset : Nat
  append : Bool
  deriving DecidableEq

/-- Model of `os.OpenFile(name, flag, perm)`.
An existing regular file is opened when the permissions allow the access mode;
its content is emptied only under `O_TRUNC`. A missing file is created (empty,
with the owner bits of `perm`, the umask taken not to clear them) only under
`O_CREATE` and when the place is creatable. A directory cannot be opened for
writing. -/
def openFile (fs : FS) (name : String) (flag perm : Nat) : Except Errno (FS × Handle) :=
  match fs name with
  | .missing creatable =>
    if hasFlag flag O_CREATE then
      if creatable then
        .ok (fs.set name (.file [] (hasFlag perm 0o400) (hasFlag perm 0o200)),
             ⟨name, 0, hasFlag flag O_APPEND⟩)
      else .error .EACCES
    else .error .ENOENT
  | .inaccessible => .error .EACCES
  | .dir =>
    if wantsWrite flag then .error .EISDIR
    else .ok (fs, ⟨name, 0, hasFlag flag O_APPEND⟩)
  | .file _ r w =>
    if (wantsWrite flag && !w) || (wantsRead flag && !r) then .error .EACCES
    else if hasFlag flag O_TRUNC then
      .ok (fs.set name (.file [] r w), ⟨name, 0, hasFlag flag O_APPEND⟩)
    else .ok (fs, ⟨name, 0, hasFlag flag O_APPEND⟩)

/-- Content of a file after `data` is written at offset `off`: the bytes before
`off` stay (a gap past the old end reads as zeros), `data` replaces what was at
`off`, and whatever the old content had beyond `off + data.length` stays. -/
def writeAt (old : Bytes) (off : Nat) (data : Bytes) : Bytes :=
  old.take off ++ List.replicate (off - old.length) 0 ++ data ++ old.drop (off + data.length)

/-- Model of writing `data` through handle `h` (the effect of
`fmt.Fprint(wr, ...)` followed by `wr.Flush()` on a `bufio.Writer` over the
file): the bytes go to the handle's offset, or to the end under `O_APPEND`, and
the offset moves past them. -/
def write (fs : FS) (h : Handle) (data : Bytes) : FS × Handle :=
  match fs h.name with
  | .file c r w =>
    let off := if h.append then c.length else h.offset
    (fs.set h.name (.file (writeAt c off data) r w), { h with offset := off + data.length })
  | _ => (fs, h)

/-- Loop of `bytealg.LastIndexByteString`: `for i := n-1; i >= 0; i--`, giving
the largest index below `n` holding `c`, or `-1`. -/
def lastIndexFrom (s : List Char) (c : Char) : Nat → Int
  | 0 => -1
  | i + 1 => if s.get? i = some c then (i : Int) else lastIndexFrom s c i

/-- Model of `bytealg.LastIndexByteString(s, c)`. -/
def lastIndexByteString (s : List Char) (c : Char) : Int :=
  lastIndexFrom s c s.length

/-- Model of `path.Split`: `i := LastIndexByteString(path, '/')`,
`return path[:i+1], path[i+1:]`. -/
def pathSplit (path : String) : String × String :=
  let i := lastIndexByteString path.data '/'
  (⟨path.data.take (i + 1).toNat⟩, ⟨path.data.drop (i + 1).toNat⟩)

/-- A file-system call made by the program. -/
inductive Event
  | stat (name : String)
  | readFile (name : String)
  | openFile (name : String) (flag perm : Nat)
  | write (name : String) (data : Bytes)
  | close (name : String)
  deriving DecidableEq

/-- Observable result of one run of the program: the exit status, the lines
printed on standard output, the messages sent to standard error (for
`log.Fatal`, the message without the date and time the logger puts in front),
the file-system calls in the order made (`write` stands for the data flushed
through the buffered writer), and the file system after the run. -/
structure Run where
  exitCode : Nat
  stdout : List String
  stderr : List String
  trace : List Event
  fs : FS

/-- Source `fileExists`: true exactly when `os.Stat` reports no error. -/
def fileExists (fs : FS) (file : String) : Bool :=
  match stat fs file with
  | .ok _ => true
  | .error _ => false

/-- Source `printHelp`: the two lines printed; `none` when `os.Args[0]` is out
of range (the argument vector is empty), which is a run-time panic in Go. -/
def printHelp (args : List String) : Option (List String) :=
  match args with
  | [] => none
  | a0 :: _ =>
    some ["USAGE: " ++ a0 ++ " [markdown file]",
          "The name of the output file will be the same with \x27.html\x27 appended."]

/-- Lines 44-50 of `main`: the name of the output file. -/
def outfilename (args : List String) (file : String) : String :=
  if args.length = 3 then args.getD 2 ""
  else (pathSplit file).2 ++ ".html"

/-- Flags `os.O_WRONLY|os.O_CREATE` that `main` opens the output with. -/
def outFlags : Nat := O_WRONLY ||| O_CREATE

/-- Permission `0600` that `main` opens the output with. -/
def outPerm : Nat := 0o600

/-- Source `main`, run on argument vector `args` (`os.Args`, the program name
first) and file system `fs`. `log.Fatal` writes its message to standard error
and exits with status 1; a run-time panic exits with status 2. -/
def main (toHTML : Bytes → Bytes) (args : List String) (fs : FS) : Run :=
  if args.length < 2 then
    match printHelp args with
    | none => ⟨2, [], ["panic: runtime error: index out of range [0] with length 0"], [], fs⟩
    | some lines => ⟨1, lines, [], [], fs⟩
  else
    let file := args.getD 1 ""
    if !fileExists fs file then
      ⟨1, [], ["file \x27" ++ file ++ "\x27 doesn\x27t exist!"], [.stat file], fs⟩
    else
      match readFile fs file with
      | .error _ => ⟨1, [], ["failed to read file!"], [.stat file, .readFile file], fs⟩
      | .ok md =>
        let html := toHTML md
        let out := outfilename args file
        match openFile fs out outFlags outPerm with
        | .error _ =>
          ⟨1, [], ["failed to open output file!"],
            [.stat file, .readFile file, .openFile out outFlags outPerm], fs⟩
        | .ok (fs1, outfile) =>
          let (fs2, _) := write fs1 outfile html
          ⟨0, [], [],
            [.stat file, .readFile file, .openFile out outFlags outPerm,
             .write out html, .close out], fs2⟩

/-- Paths the run opened with `os.OpenFile`, in order. -/
def openedPaths (r : Run) : List String :=
  r.trace.filterMap fun e =>
    match e with
    | .openFile name _ _ => some name
    | _ => none

/-- Paths the run wrote to, in order. -/
def writtenPaths (r : Run) : List String :=
  r.trace.filterMap fun e =>
    match e with
    | .write name _ => some name
    | _ => none

/-- Paths the run read with `os.ReadFile`, in order. -/
def readPaths (r : Run) : List String :=
  r.trace.filterMap fun e =>
    match e with
    | .readFile name => some name
    | _ => none

/-- A file system holding one readable, writable file `name` with content
`content`; every other path is missing and creatable. -/
def singleFile (name : String) (content : Bytes) : FS :=
  fun p => if p = name then .file content true true else .missing true

/-- A file system with no files in which every path is creatable. -/
def emptyFS : FS := fun _ => .missing true

/-! ## Sample inputs used at concrete instances -/

/-- Stand-in for the external conversion used at concrete inputs: it wraps the
input in a paragraph element, as the library does for a line of plain text. -/
def demoToHTML : Bytes → Bytes :=
  fun md => [60, 112, 62] ++ md ++ [60, 47, 112, 62, 10]

/-- A file system whose only file, `name`, may not be read by the process. -/
def unreadableFile (name : String) (content : Bytes) : FS :=
  fun p => if p = name then .file content false true else .missing true

/-- A file system in which `name` cannot be reached (permission denied on the
way to it) and every other path is missing. -/
def unreachablePath (name : String) : FS :=
  fun p => if p = name then .inaccessible else .missing true

/-- A file system with a readable input file and an output file already there. -/
def inputAndOutput (input : String) (md : Bytes) (output : String) (old : Bytes) : FS :=
  fun p =>
    if p = input then .file md true true
    else if p = output then .file old true true
    else .missing true

/-! # Theorems -/

/-! ## The modelled calls with the arguments `main` passes -/

theorem openFile_out_missing (fs : FS) (name : String) (c : Bool) (h : fs name = .missing c) :
    openFile fs name outFlags outPerm =
      if c then .ok (fs.set name (.file [] true true), ⟨name, 0, false⟩)
      else .error .EACCES := by
  have h1 : hasFlag outFlags O_CREATE = true := by decide
  have h2 : hasFlag outPerm 0o400 = true := by decide
  have h3 : hasFlag outPerm 0o200 = true := by decide
  have h4 : hasFlag outFlags O_APPEND = false := by decide
  simp only [openFile, h, h1, h2, h3, h4, if_true]

theorem openFile_out_inaccessible (fs : FS) (name : String) (h : fs name = .inaccessible) :
    openFile fs name outFlags outPerm = .error .EACCES := by
  simp only [openFile, h]

theorem openFile_out_dir (fs : FS) (name : String) (h : fs name = .dir) :
    openFile fs name outFlags outPerm = .error .EISDIR := by
  have h1 : wantsWrite outFlags = true := by decide
  simp only [openFile, h, h1, if_true]

theorem openFile_out_file (fs : FS) (name : String) (c : Bytes) (r w : Bool)
    (h : fs name = .file c r w) :
    openFile fs name outFlags outPerm =
      if w then .ok (fs, ⟨name, 0, false⟩) else .error .EACCES := by
  have h1 : wantsWrite outFlags = true := by decide
  have h2 : wantsRead outFlags = false := by decide
  have h3 : hasFlag outFlags O_TRUNC = false := by decide
  have h4 : hasFlag outFlags O_APPEND = false := by decide
  cases w <;> simp [openFile, h, h1, h2, h3, h4]

theorem writeAt_zero (old data : Bytes) :
    writeAt old 0 data = data ++ old.drop data.length := by
  simp [writeAt]

theorem readFile_ok_iff (fs : FS) (name : String) (md : Bytes) :
    readFile fs name = .ok md ↔ ∃ w, fs name = .file md true w := by
  unfold readFile
  cases h : fs name with
  | missing c => simp
  | inaccessible => simp
  | dir => simp
  | file c r w => cases r <;> simp

theorem fileExists_of_readFile (fs : FS) (name : String) (md : Bytes)
    (h : readFile fs name = .ok md) : fileExists fs name = true := by
  obtain ⟨w, hw⟩ := (readFile_ok_iff fs name md).1 h
  simp [fileExists, stat, hw]

/-! ## Unfolding `main` along its paths -/

theorem main_stat_fails (toHTML : Bytes → Bytes) (prog file : String) (rest : List String)
    (fs : FS) (h : fileExists fs file = false) :
    main toHTML (prog :: file :: rest) fs =
      ⟨1, [], ["file \x27" ++ file ++ "\x27 doesn\x27t exist!"], [.stat file], fs⟩ := by
  simp [main, h]

theorem main_read_fails (toHTML : Bytes → Bytes) (prog file : String) (rest : List String)
    (fs : FS) (e : Errno) (h : fileExists fs file = true) (hr : readFile fs file = .error e) :
    main toHTML (prog :: file :: rest) fs =
      ⟨1, [], ["failed to read file!"], [.stat file, .readFile file], fs⟩ := by
  simp [main, h, hr]

theorem main_open_fails (toHTML : Bytes → Bytes) (prog file : String) (rest : List String)
    (fs : FS) (md : Bytes) (e : Errno) (hr : readFile fs file = .ok md)
    (ho : openFile fs (outfilename (prog :: file :: rest) file) outFlags outPerm = .error e) :
    main toHTML (prog :: file :: rest) fs =
      ⟨1, [], ["failed to open output file!"],
        [.stat file, .readFile file,
         .openFile (outfilename (prog :: file :: rest) file) outFlags outPerm], fs⟩ := by
  have h := fileExists_of_readFile fs file md hr
  simp [main, h, hr, ho]

theorem main_success (toHTML : Bytes → Bytes) (prog file : String) (rest : List String)
    (fs fs1 : FS) (md : Bytes) (hd : Handle) (hr : readFile fs file = .ok md)
    (ho : openFile fs (outfilename (prog :: file :: rest) file) outFlags outPerm = .ok (fs1, hd)) :
    main toHTML (prog :: file :: rest) fs =
      ⟨0, [], [],
        [.stat file, .readFile file,
         .openFile (outfilename (prog :: file :: rest) file) outFlags outPerm,
         .write (outfilename (prog :: file :: rest) file) (toHTML md),
         .close (outfilename (prog :: file :: rest) file)],
        (write fs1 hd (toHTML md)).1⟩ := by
  have h := fileExists_of_readFile fs file md hr
  simp [main, h, hr, ho]

/-! ## Early exits -/

/-- C5: with only the program name in the argument vector, `main` prints the
two usage lines on standard output, exits with a non-zero status, makes no
file-system call at all (nothing is stat-ed, read, opened or written) and
leaves the file system as it was. -/
theorem C5_no_arguments_usage (toHTML : Bytes → Bytes) (prog : String) (fs : FS) :
    (main toHTML [prog] fs).stdout =
        ["USAGE: " ++ prog ++ " [markdown file]",
         "The name of the output file will be the same with \x27.html\x27 appended."] ∧
      (main toHTML [prog] fs).exitCode ≠ 0 ∧
      (main toHTML [prog] fs).trace = [] ∧
      (main toHTML [prog] fs).fs = fs := by
  simp [main, printHelp]

/-- C6: when nothing exists at the input path, with or without further
arguments, `main` exits with a non-zero status, opens and writes no file, and
the file system after the run is the one before it (so neither the explicit
nor the derived output path has gained a file). -/
theorem C6_missing_input_no_output (toHTML : Bytes → Bytes) (prog file : String)
    (rest : List String) (fs : FS) (c : Bool) (h : fs file = .missing c) :
    (main toHTML (prog :: file :: rest) fs).exitCode ≠ 0 ∧
      openedPaths (main toHTML (prog :: file :: rest) fs) = [] ∧
      writtenPaths (main toHTML (prog :: file :: rest) fs) = [] ∧
      (main toHTML (prog :: file :: rest) fs).fs = fs := by
  have hx : fileExists fs file = false := by simp [fileExists, stat, h]
  rw [main_stat_fails toHTML prog file rest fs hx]
  simp [openedPaths, writtenPaths]

/-- Witness of C6: `md2html nope.md out.html` in an empty file system. -/
theorem C6_missing_input_no_output_witness :
    emptyFS "nope.md" = .missing true ∧
    ((main demoToHTML ["md2html", "nope.md", "out.html"] emptyFS).exitCode ≠ 0 ∧
      openedPaths (main demoToHTML ["md2html", "nope.md", "out.html"] emptyFS) = [] ∧
      writtenPaths (main demoToHTML ["md2html", "nope.md", "out.html"] emptyFS) = [] ∧
      (main demoToHTML ["md2html", "nope.md", "out.html"] emptyFS).fs = emptyFS) :=
  ⟨rfl, C6_missing_input_no_output demoToHTML "md2html" "nope.md" ["out.html"] emptyFS true rfl⟩

/-- C7: when `os.Stat` succeeds on the input path but `os.ReadFile` fails,
`main` exits with a non-zero status after the calls `stat`, `readFile` only:
the output path is never opened or written, and the file system is unchanged. -/
theorem C7_unreadable_input_no_output (toHTML : Bytes → Bytes) (prog file : String)
    (rest : List String) (fs : FS) (e : Errno)
    (hs : stat fs file = .ok ()) (hr : readFile fs file = .error e) :
    (main toHTML (prog :: file :: rest) fs).exitCode ≠ 0 ∧
      (main toHTML (prog :: file :: rest) fs).trace = [.stat file, .readFile file] ∧
      openedPaths (main toHTML (prog :: file :: rest) fs) = [] ∧
      writtenPaths (main toHTML (prog :: file :: rest) fs) = [] ∧
      (main toHTML (prog :: file :: rest) fs).fs = fs := by
  have hx : fileExists fs file = true := by simp [fileExists, hs]
  rw [main_read_fails toHTML prog file rest fs e hx hr]
  simp [openedPaths, writtenPaths]

/-- Witness of C7: the input exists with read permission denied. -/
theorem C7_unreadable_input_no_output_witness :
    stat (unreadableFile "a.md" [104, 105]) "a.md" = .ok () ∧
    readFile (unreadableFile "a.md" [104, 105]) "a.md" = .error .EACCES ∧
    ((main demoToHTML ["md2html", "a.md"] (unreadableFile "a.md" [104, 105])).exitCode ≠ 0 ∧
      (main demoToHTML ["md2html", "a.md"] (unreadableFile "a.md" [104, 105])).trace =
        [.stat "a.md", .readFile "a.md"] ∧
      openedPaths (main demoToHTML ["md2html", "a.md"] (unreadableFile "a.md" [104, 105])) = [] ∧
      writtenPaths (main demoToHTML ["md2html", "a.md"] (unreadableFile "a.md" [104, 105])) = [] ∧
      (main demoToHTML ["md2html", "a.md"] (unreadableFile "a.md" [104, 105])).fs =
        unreadableFile "a.md" [104, 105]) :=
  ⟨rfl, rfl,
    C7_unreadable_input_no_output demoToHTML "md2html" "a.md" [] (unreadableFile "a.md" [104, 105])
      .EACCES rfl rfl⟩

/-- C9: `fileExists` is true exactly when `os.Stat` succeeds; and whenever
`os.Stat` fails on the first user argument, whatever the error, `main` stops
after that one call (nothing is read) with exit status 1 and the single fatal
message made of `file`, the argument verbatim between apostrophes, and
`doesn't exist!`. -/
theorem C9_stat_failure_message (toHTML : Bytes → Bytes) (prog file : String)
    (rest : List String) (fs : FS) :
    (fileExists fs file = true ↔ stat fs file = .ok ()) ∧
      ∀ e : Errno, stat fs file = .error e →
        (main toHTML (prog :: file :: rest) fs).stderr =
            ["file \x27" ++ file ++ "\x27 doesn\x27t exist!"] ∧
          (main toHTML (prog :: file :: rest) fs).exitCode = 1 ∧
          (main toHTML (prog :: file :: rest) fs).trace = [.stat file] ∧
          readPaths (main toHTML (prog :: file :: rest) fs) = [] ∧
          (main toHTML (prog :: file :: rest) fs).fs = fs := by
  constructor
  · unfold fileExists
    cases h : stat fs file with
    | ok u => simp
    | error e => simp
  · intro e he
    have hx : fileExists fs file = false := by simp [fileExists, he]
    rw [main_stat_fails toHTML prog file rest fs hx]
    simp [readPaths]

/-- Witness of C9: `os.Stat` fails with a permission error, not with not-found. -/
theorem C9_stat_failure_message_witness :
    stat (unreachablePath "secret/a.md") "secret/a.md" = .error .EACCES ∧
    ((main demoToHTML ["md2html", "secret/a.md"] (unreachablePath "secret/a.md")).stderr =
        ["file \x27secret/a.md\x27 doesn\x27t exist!"] ∧
      (main demoToHTML ["md2html", "secret/a.md"] (unreachablePath "secret/a.md")).exitCode = 1 ∧
      (main demoToHTML ["md2html", "secret/a.md"] (unreachablePath "secret/a.md")).trace =
        [.stat "secret/a.md"] ∧
      readPaths (main demoToHTML ["md2html", "secret/a.md"] (unreachablePath "secret/a.md")) = [] ∧
      (main demoToHTML ["md2html", "secret/a.md"] (unreachablePath "secret/a.md")).fs =
        unreachablePath "secret/a.md") :=
  ⟨rfl,
    (C9_stat_failure_message demoToHTML "md2html" "secret/a.md" []
      (unreachablePath "secret/a.md")).2 .EACCES rfl⟩

/-! ## Exit status -/

theorem fileExists_false_of_missing (fs : FS) (file : String) (c : Bool)
    (h : fs file = .missing c) : fileExists fs file = false := by
  simp [fileExists, stat, h]

theorem missing_or_unreadable_of_not_fileExists (fs : FS) (file : String)
    (h : fileExists fs file = false) :
    (∃ c, fs file = .missing c) ∨ ∃ e, readFile fs file = .error e := by
  cases hn : fs file with
  | missing c => exact Or.inl ⟨c, rfl⟩
  | inaccessible => exact Or.inr ⟨.EACCES, by simp [readFile, hn]⟩
  | dir => simp [fileExists, stat, hn] at h
  | file c r w => simp [fileExists, stat, hn] at h

/-- C8: the exit status of `main` is non-zero exactly when no user argument
was given, or nothing exists at the input path, or reading the input fails, or
opening the resolved output path fails; in every other case it is 0. The same
holds when "the input file is missing" is read as the program reads it, namely
`fileExists` returning false. -/
theorem C8_exit_status_characterisation (toHTML : Bytes → Bytes) (args : List String) (fs : FS) :
    ((main toHTML args fs).exitCode ≠ 0 ↔
      (args.length < 2 ∨
        ∃ file, args.get? 1 = some file ∧
          ((∃ c, fs file = .missing c) ∨
            (∃ e, readFile fs file = .error e) ∨
            (∃ e, openFile fs (outfilename args file) outFlags outPerm = .error e)))) ∧
    ((main toHTML args fs).exitCode = 0 ↔
      ¬ (args.length < 2 ∨
        ∃ file, args.get? 1 = some file ∧
          ((∃ c, fs file = .missing c) ∨
            (∃ e, readFile fs file = .error e) ∨
            (∃ e, openFile fs (outfilename args file) outFlags outPerm = .error e)))) ∧
    ((main toHTML args fs).exitCode ≠ 0 ↔
      (args.length < 2 ∨
        ∃ file, args.get? 1 = some file ∧
          (fileExists fs file = false ∨
            (∃ e, readFile fs file = .error e) ∨
            (∃ e, openFile fs (outfilename args file) outFlags outPerm = .error e)))) := by
  have key : ((main toHTML args fs).exitCode ≠ 0 ↔
      (args.length < 2 ∨
        ∃ file, args.get? 1 = some file ∧
          ((∃ c, fs file = .missing c) ∨
            (∃ e, readFile fs file = .error e) ∨
            (∃ e, openFile fs (outfilename args file) outFlags outPerm = .error e)))) := by
    match args with
    | [] => simp [main, printHelp]
    | [a] => simp [main, printHelp]
    | prog :: file :: rest =>
      have hlen : ¬ ((prog :: file :: rest).length < 2) := by simp
      have hget : (prog :: file :: rest).get? 1 = some file := rfl
      cases hr : readFile fs file with
      | error e =>
        have hne : (main toHTML (prog :: file :: rest) fs).exitCode ≠ 0 := by
          cases hx : fileExists fs file with
          | false => rw [main_stat_fails toHTML prog file rest fs hx]; simp
          | true => rw [main_read_fails toHTML prog file rest fs e hx hr]; simp
        exact ⟨fun _ => Or.inr ⟨file, hget, Or.inr (Or.inl ⟨e, hr⟩)⟩, fun _ => hne⟩
      | ok md =>
        obtain ⟨w, hw⟩ := (readFile_ok_iff fs file md).1 hr
        cases ho : openFile fs (outfilename (prog :: file :: rest) file) outFlags outPerm with
        | error e =>
          have hne : (main toHTML (prog :: file :: rest) fs).exitCode ≠ 0 := by
            rw [main_open_fails toHTML prog file rest fs md e hr ho]; simp
          exact ⟨fun _ => Or.inr ⟨file, hget, Or.inr (Or.inr ⟨e, ho⟩)⟩, fun _ => hne⟩
        | ok res =>
          obtain ⟨fs1, hd⟩ := res
          have h0 : (main toHTML (prog :: file :: rest) fs).exitCode = 0 := by
            rw [main_success toHTML prog file rest fs fs1 md hd hr ho]
          constructor
          · intro hne
            exact absurd h0 hne
          · rintro (hl | ⟨f, hf, hc⟩)
            · exact absurd hl hlen
            · have hff : f = file := by
                rw [hget] at hf
                exact (Option.some.inj hf).symm
              subst hff
              rcases hc with ⟨c, hc⟩ | ⟨e, he⟩ | ⟨e, he⟩
              · rw [hw] at hc; cases hc
              · rw [hr] at he; cases he
              · rw [ho] at he; cases he
  refine ⟨key, ⟨fun h0 hc => key.2 hc h0, fun hn => ?_⟩, key.trans ⟨?_, ?_⟩⟩
  · by_contra hne
    exact hn (key.1 hne)
  · rintro (hl | ⟨f, hf, hc⟩)
    · exact Or.inl hl
    · refine Or.inr ⟨f, hf, ?_⟩
      rcases hc with ⟨c, hc⟩ | he | he
      · exact Or.inl (fileExists_false_of_missing fs f c hc)
      · exact Or.inr (Or.inl he)
      · exact Or.inr (Or.inr he)
  · rintro (hl | ⟨f, hf, hc⟩)
    · exact Or.inl hl
    · refine Or.inr ⟨f, hf, ?_⟩
      rcases hc with hx | he | he
      · rcases missing_or_unreadable_of_not_fileExists fs f hx with hm | hu
        · exact Or.inl hm
        · exact Or.inr (Or.inl hu)
      · exact Or.inr (Or.inl he)
      · exact Or.inr (Or.inr he)

/-! ## The output path -/

theorem outfilename_three (prog file out : String) :
    outfilename [prog, file, out] file = out := by
  simp [outfilename]

theorem outfilename_not_three (prog file : String) (rest : List String) (h : rest.length ≠ 1) :
    outfilename (prog :: file :: rest) file = (pathSplit file).2 ++ ".html" := by
  have h3 : ¬ ((prog :: file :: rest).length = 3) := by
    simp only [List.length_cons]
    omega
  simp only [outfilename, h3, if_false]

theorem openedPaths_of_read (toHTML : Bytes → Bytes) (prog file : String) (rest : List String)
    (fs : FS) (md : Bytes) (hr : readFile fs file = .ok md) :
    openedPaths (main toHTML (prog :: file :: rest) fs) =
      [outfilename (prog :: file :: rest) file] := by
  cases ho : openFile fs (outfilename (prog :: file :: rest) file) outFlags outPerm with
  | error e =>
    rw [main_open_fails toHTML prog file rest fs md e hr ho]
    simp [openedPaths]
  | ok res =>
    obtain ⟨fs1, hd⟩ := res
    rw [main_success toHTML prog file rest fs fs1 md hd hr ho]
    simp [openedPaths]

/-- C1, as the code has it: once the input has been read, the one path `main`
opens for writing is the second user argument when exactly two user arguments
were given, and the base name of the input followed by `.html` for every other
argument count (one user argument, or more than two). -/
theorem C1_output_path_resolution (toHTML : Bytes → Bytes) (prog file : String)
    (rest : List String) (fs : FS) (md : Bytes) (hr : readFile fs file = .ok md) :
    (∀ out, rest = [out] → openedPaths (main toHTML (prog :: file :: rest) fs) = [out]) ∧
      (rest.length ≠ 1 →
        openedPaths (main toHTML (prog :: file :: rest) fs) = [(pathSplit file).2 ++ ".html"]) := by
  rw [openedPaths_of_read toHTML prog file rest fs md hr]
  constructor
  · intro out ho
    subst ho
    rw [outfilename_three]
  · intro hl
    rw [outfilename_not_three prog file rest hl]

/-- Witness of C1: with two user arguments the second one is opened. -/
theorem C1_output_path_resolution_witness :
    readFile (singleFile "docs/a.md" [104, 105]) "docs/a.md" = .ok [104, 105] ∧
    openedPaths (main demoToHTML ["md2html", "docs/a.md", "out.html"]
      (singleFile "docs/a.md" [104, 105])) = ["out.html"] :=
  ⟨rfl,
    (C1_output_path_resolution demoToHTML "md2html" "docs/a.md" ["out.html"]
      (singleFile "docs/a.md" [104, 105]) [104, 105] rfl).1 "out.html" rfl⟩

/-- C1 fails as stated: with three user arguments, the second user argument
`out.html` is supplied, yet the path opened for writing is `a.md.html`. -/
theorem C1_extra_argument_counterexample :
    (["md2html", "a.md", "out.html", "extra"] : List String).get? 2 = some "out.html" ∧
    openedPaths (main demoToHTML ["md2html", "a.md", "out.html", "extra"]
      (singleFile "a.md" [104, 105])) = ["a.md.html"] ∧
    "out.html" ∉ openedPaths (main demoToHTML ["md2html", "a.md", "out.html", "extra"]
      (singleFile "a.md" [104, 105])) := by
  decide

/-! ## What the run leaves in the output file -/

theorem FS.set_same (fs : FS) (name : String) (n : Node) : (fs.set name n) name = n := by
  simp [FS.set]

theorem FS.set_other (fs : FS) (name p : String) (n : Node) (h : p ≠ name) :
    (fs.set name n) p = fs p := by
  simp [FS.set, h]

theorem FS.set_set (fs : FS) (name : String) (a b : Node) :
    (fs.set name a).set name b = fs.set name b := by
  funext p
  by_cases h : p = name <;> simp [FS.set, h]

theorem write_at_start (fs : FS) (name : String) (c data : Bytes) (r w : Bool)
    (h : fs name = .file c r w) :
    (write fs ⟨name, 0, false⟩ data).1 = fs.set name (.file (data ++ c.drop data.length) r w) := by
  simp [write, h, writeAt_zero]

theorem readFile_congr (fs fs1 : FS) (name : String) (h : fs1 name = fs name) :
    readFile fs1 name = readFile fs name := by
  simp [readFile, h]

theorem main_fs_read_error (toHTML : Bytes → Bytes) (prog file : String) (rest : List String)
    (fs : FS) (e : Errno) (hr : readFile fs file = .error e) :
    (main toHTML (prog :: file :: rest) fs).fs = fs := by
  cases hx : fileExists fs file with
  | false => rw [main_stat_fails toHTML prog file rest fs hx]
  | true => rw [main_read_fails toHTML prog file rest fs e hx hr]

theorem main_fs_existing (toHTML : Bytes → Bytes) (prog file : String) (rest : List String)
    (fs : FS) (md old : Bytes) (r : Bool) (hr : readFile fs file = .ok md)
    (ho : fs (outfilename (prog :: file :: rest) file) = .file old r true) :
    (main toHTML (prog :: file :: rest) fs).fs =
      fs.set (outfilename (prog :: file :: rest) file)
        (.file (toHTML md ++ old.drop (toHTML md).length) r true) := by
  have hopen := openFile_out_file fs _ old r true ho
  simp only [if_true] at hopen
  rw [main_success toHTML prog file rest fs fs md _ hr hopen]
  exact write_at_start fs _ old (toHTML md) r true ho

theorem main_fs_created (toHTML : Bytes → Bytes) (prog file : String) (rest : List String)
    (fs : FS) (md : Bytes) (hr : readFile fs file = .ok md)
    (ho : fs (outfilename (prog :: file :: rest) file) = .missing true) :
    (main toHTML (prog :: file :: rest) fs).fs =
      fs.set (outfilename (prog :: file :: rest) file) (.file (toHTML md) true true) := by
  have hopen := openFile_out_missing fs _ true ho
  simp only [if_true] at hopen
  rw [main_success toHTML prog file rest fs _ md _ hr hopen]
  rw [write_at_start _ _ [] (toHTML md) true true (FS.set_same fs _ _), FS.set_set]
  simp

theorem main_fs_open_error (toHTML : Bytes → Bytes) (prog file : String) (rest : List String)
    (fs : FS) (md : Bytes) (e : Errno) (hr : readFile fs file = .ok md)
    (ho : openFile fs (outfilename (prog :: file :: rest) file) outFlags outPerm = .error e) :
    (main toHTML (prog :: file :: rest) fs).fs = fs := by
  rw [main_open_fails toHTML prog file rest fs md e hr ho]

/-- C10: the output is opened with `O_WRONLY|O_CREATE` only, so when the run
succeeds on an output file that already holds `old`, the file afterwards holds
the conversion result followed by the bytes of `old` past that length: its
length is the larger of the two lengths, it starts with the conversion result,
what `old` had beyond it is unchanged, and no other path is touched. -/
theorem C10_existing_output_overlaid (toHTML : Bytes → Bytes) (prog file : String)
    (rest : List String) (fs : FS) (md old : Bytes) (r : Bool)
    (hr : readFile fs file = .ok md)
    (ho : fs (outfilename (prog :: file :: rest) file) = .file old r true) :
    (main toHTML (prog :: file :: rest) fs).exitCode = 0 ∧
      (main toHTML (prog :: file :: rest) fs).fs (outfilename (prog :: file :: rest) file) =
        .file (toHTML md ++ old.drop (toHTML md).length) r true ∧
      (toHTML md ++ old.drop (toHTML md).length).length = max old.length (toHTML md).length ∧
      (toHTML md ++ old.drop (toHTML md).length).take (toHTML md).length = toHTML md ∧
      (toHTML md ++ old.drop (toHTML md).length).drop (toHTML md).length =
        old.drop (toHTML md).length ∧
      ∀ p, p ≠ outfilename (prog :: file :: rest) file →
        (main toHTML (prog :: file :: rest) fs).fs p = fs p := by
  have hfs := main_fs_existing toHTML prog file rest fs md old r hr ho
  have hopen := openFile_out_file fs _ old r true ho
  simp only [if_true] at hopen
  refine ⟨?_, ?_, ?_, ?_, ?_, ?_⟩
  · rw [main_success toHTML prog file rest fs fs md _ hr hopen]
  · rw [hfs, FS.set_same]
  · simp only [List.length_append, List.length_drop]
    omega
  · simp
  · simp
  · intro p hp
    rw [hfs, FS.set_other _ _ _ _ hp]

/-- Witness of C10: `out.html` holds twelve bytes before the run, the
conversion result of `hi` has ten. -/
theorem C10_existing_output_overlaid_witness :
    readFile (inputAndOutput "a.md" [104, 105] "out.html"
        [111, 108, 100, 32, 99, 111, 110, 116, 101, 110, 116, 10]) "a.md" = .ok [104, 105] ∧
    (inputAndOutput "a.md" [104, 105] "out.html"
        [111, 108, 100, 32, 99, 111, 110, 116, 101, 110, 116, 10])
      (outfilename ["md2html", "a.md", "out.html"] "a.md") =
        .file [111, 108, 100, 32, 99, 111, 110, 116, 101, 110, 116, 10] true true ∧
    (main demoToHTML ["md2html", "a.md", "out.html"]
      (inputAndOutput "a.md" [104, 105] "out.html"
        [111, 108, 100, 32, 99, 111, 110, 116, 101, 110, 116, 10])).fs
      (outfilename ["md2html", "a.md", "out.html"] "a.md") =
        .file (demoToHTML [104, 105] ++
          List.drop (demoToHTML [104, 105]).length
            [111, 108, 100, 32, 99, 111, 110, 116, 101, 110, 116, 10]) true true :=
  ⟨rfl, rfl,
    (C10_existing_output_overlaid demoToHTML
      "md2html" "a.md" ["out.html"]
      (inputAndOutput "a.md" [104, 105] "out.html"
        [111, 108, 100, 32, 99, 111, 110, 116, 101, 110, 116, 10])
      [104, 105] [111, 108, 100, 32, 99, 111, 110, 116, 101, 110, 116, 10] true rfl rfl).2.1⟩

/-- C2 at a failing input: `a.md` holds `hi`, `out.html` already
holds the twelve bytes of `old content` and a newline, and the conversion
yields the ten bytes of `<p>hi</p>` and a newline. The run succeeds, and
`out.html` then holds those ten bytes followed by `t` and a newline left over
from the old content, which is not the conversion result. -/
theorem C2_stale_tail_after_run :
    (main demoToHTML ["md2html", "a.md", "out.html"]
      (inputAndOutput "a.md" [104, 105] "out.html"
        [111, 108, 100, 32, 99, 111, 110, 116, 101, 110, 116, 10])).exitCode = 0 ∧
    (main demoToHTML ["md2html", "a.md", "out.html"]
      (inputAndOutput "a.md" [104, 105] "out.html"
        [111, 108, 100, 32, 99, 111, 110, 116, 101, 110, 116, 10])).fs "out.html" =
      .file [60, 112, 62, 104, 105, 60, 47, 112, 62, 10, 116, 10] true true ∧
    (main demoToHTML ["md2html", "a.md", "out.html"]
      (inputAndOutput "a.md" [104, 105] "out.html"
        [111, 108, 100, 32, 99, 111, 110, 116, 101, 110, 116, 10])).fs "out.html" ≠
      .file [60, 112, 62, 104, 105, 60, 47, 112, 62, 10] true true := by
  decide

/-! ## Running twice -/

/-- C4: run the program with an explicit output path, then run it again with
the same arguments on the file system the first run left, the input file being
unchanged by the first run. Whatever the output path named at the start, the
second run leaves the file system, and so the output file, exactly as the
first run left it. -/
theorem C4_second_run_changes_nothing (toHTML : Bytes → Bytes) (prog file out : String) (fs : FS)
    (hin : (main toHTML [prog, file, out] fs).fs file = fs file) :
    (main toHTML [prog, file, out] (main toHTML [prog, file, out] fs).fs).fs out =
        (main toHTML [prog, file, out] fs).fs out ∧
      (main toHTML [prog, file, out] (main toHTML [prog, file, out] fs).fs).fs =
        (main toHTML [prog, file, out] fs).fs := by
  have key : (main toHTML [prog, file, out] (main toHTML [prog, file, out] fs).fs).fs =
      (main toHTML [prog, file, out] fs).fs := by
    have hname : outfilename [prog, file, out] file = out := outfilename_three prog file out
    cases hr : readFile fs file with
    | error e =>
      have h1 := main_fs_read_error toHTML prog file [out] fs e hr
      rw [h1, h1]
    | ok md =>
      have hr1 : readFile (main toHTML [prog, file, out] fs).fs file = .ok md := by
        rw [readFile_congr fs _ file hin, hr]
      cases ho : fs out with
      | missing c =>
        cases c with
        | false =>
          have hopen := openFile_out_missing fs out false ho
          simp only [Bool.false_eq_true, if_false] at hopen
          rw [← hname] at hopen
          have h1 := main_fs_open_error toHTML prog file [out] fs md _ hr hopen
          rw [h1, h1]
        | true =>
          rw [← hname] at ho
          have h1 := main_fs_created toHTML prog file [out] fs md hr ho
          have hout1 : (main toHTML [prog, file, out] fs).fs (outfilename [prog, file, out] file) =
              .file (toHTML md) true true := by
            rw [h1, FS.set_same]
          have h2 := main_fs_existing toHTML prog file [out] _ md (toHTML md) true hr1 hout1
          rw [h2, h1, FS.set_set]
          simp
      | inaccessible =>
        have hopen := openFile_out_inaccessible fs out ho
        rw [← hname] at hopen
        have h1 := main_fs_open_error toHTML prog file [out] fs md _ hr hopen
        rw [h1, h1]
      | dir =>
        have hopen := openFile_out_dir fs out ho
        rw [← hname] at hopen
        have h1 := main_fs_open_error toHTML prog file [out] fs md _ hr hopen
        rw [h1, h1]
      | file old r w =>
        cases w with
        | false =>
          have hopen := openFile_out_file fs out old r false ho
          simp only [Bool.false_eq_true, if_false] at hopen
          rw [← hname] at hopen
          have h1 := main_fs_open_error toHTML prog file [out] fs md _ hr hopen
          rw [h1, h1]
        | true =>
          rw [← hname] at ho
          have h1 := main_fs_existing toHTML prog file [out] fs md old r hr ho
          have hout1 : (main toHTML [prog, file, out] fs).fs (outfilename [prog, file, out] file) =
              .file (toHTML md ++ old.drop (toHTML md).length) r true := by
            rw [h1, FS.set_same]
          have h2 := main_fs_existing toHTML prog file [out] _ md _ r hr1 hout1
          rw [h2, h1, FS.set_set]
          simp
  exact ⟨by rw [key], key⟩

/-- Witness of C4: the output file exists beforehand and is longer than the
conversion result; the input is another file, so the first run leaves it
alone. -/
theorem C4_second_run_changes_nothing_witness :
    (main demoToHTML ["md2html", "a.md", "out.html"]
        (inputAndOutput "a.md" [104, 105] "out.html"
          [111, 108, 100, 32, 99, 111, 110, 116, 101, 110, 116, 10])).fs "a.md" =
      inputAndOutput "a.md" [104, 105] "out.html"
        [111, 108, 100, 32, 99, 111, 110, 116, 101, 110, 116, 10] "a.md" ∧
    (main demoToHTML ["md2html", "a.md", "out.html"]
        (main demoToHTML ["md2html", "a.md", "out.html"]
          (inputAndOutput "a.md" [104, 105] "out.html"
            [111, 108, 100, 32, 99, 111, 110, 116, 101, 110, 116, 10])).fs).fs "out.html" =
      (main demoToHTML ["md2html", "a.md", "out.html"]
        (inputAndOutput "a.md" [104, 105] "out.html"
          [111, 108, 100, 32, 99, 111, 110, 116, 101, 110, 116, 10])).fs "out.html" :=
  ⟨by decide,
    (C4_second_run_changes_nothing demoToHTML "md2html" "a.md" "out.html"
      (inputAndOutput "a.md" [104, 105] "out.html"
        [111, 108, 100, 32, 99, 111, 110, 116, 101, 110, 116, 10]) (by decide)).1⟩

/-! ## The base name -/

theorem lastIndexFrom_bounds (s : List Char) (c : Char) (n : Nat) :
    -1 ≤ lastIndexFrom s c n ∧ lastIndexFrom s c n < (n : Int) := by
  induction n with
  | zero => simp [lastIndexFrom]
  | succ i ih =>
    unfold lastIndexFrom
    split
    · constructor <;> omega
    · constructor
      · exact ih.1
      · have := ih.2
        push_cast
        omega

theorem lastIndexFrom_none_after (s : List Char) (c : Char) (n j : Nat)
    (h1 : lastIndexFrom s c n < (j : Int)) (h2 : j < n) : s.get? j ≠ some c := by
  induction n with
  | zero => omega
  | succ i ih =>
    unfold lastIndexFrom at h1
    split at h1
    · omega
    · rename_i hne
      by_cases hj : j = i
      · subst hj
        exact hne
      · exact ih h1 (by omega)

theorem lastIndexFrom_at (s : List Char) (c : Char) (n : Nat)
    (h : 0 ≤ lastIndexFrom s c n) : s.get? (lastIndexFrom s c n).toNat = some c := by
  induction n with
  | zero => simp [lastIndexFrom] at h
  | succ i ih =>
    unfold lastIndexFrom at h ⊢
    split
    · rename_i heq
      simpa using heq
    · rename_i hne
      simp only [hne, if_false] at h
      exact ih h

theorem pathSplit_append (p : String) : (pathSplit p).1 ++ (pathSplit p).2 = p := by
  apply String.ext
  simp [pathSplit]

theorem pathSplit_file_no_slash (p : String) : '/' ∉ (pathSplit p).2.data := by
  intro hmem
  simp only [pathSplit] at hmem
  obtain ⟨m, hm⟩ := List.mem_iff_get?.1 hmem
  rw [List.get?_eq_getElem?, List.getElem?_drop, ← List.get?_eq_getElem?] at hm
  have hb := lastIndexFrom_bounds p.data '/' p.data.length
  have hlt : (lastIndexByteString p.data '/' + 1).toNat + m < p.data.length := by
    by_contra hge
    rw [List.get?_eq_none.2 (by omega)] at hm
    cases hm
  refine lastIndexFrom_none_after p.data '/' p.data.length _ ?_ hlt hm
  unfold lastIndexByteString
  push_cast
  omega

theorem pathSplit_dir_shape (p : String) :
    (pathSplit p).1 = "" ∨ ∃ d : List Char, (pathSplit p).1.data = d ++ ['/'] := by
  have hb := lastIndexFrom_bounds p.data '/' p.data.length
  by_cases h : 0 ≤ lastIndexByteString p.data '/'
  · right
    have hat := lastIndexFrom_at p.data '/' p.data.length h
    refine ⟨p.data.take (lastIndexByteString p.data '/').toNat, ?_⟩
    have hk : (lastIndexByteString p.data '/' + 1).toNat =
        (lastIndexByteString p.data '/').toNat + 1 := by omega
    simp only [pathSplit, hk, List.take_succ]
    unfold lastIndexByteString
    rw [List.get?_eq_getElem?] at hat
    rw [hat]
    rfl
  · left
    have hk : (lastIndexByteString p.data '/' + 1).toNat = 0 := by
      unfold lastIndexByteString at h ⊢
      omega
    apply String.ext
    simp [pathSplit, hk]

theorem pathSplit_no_slash (p : String) (h : '/' ∉ p.data) : (pathSplit p).2 = p := by
  have hk : (lastIndexByteString p.data '/' + 1).toNat = 0 := by
    by_contra hne
    have h0 : 0 ≤ lastIndexByteString p.data '/' := by omega
    have hat := lastIndexFrom_at p.data '/' p.data.length h0
    exact h (List.mem_iff_get?.2 ⟨_, hat⟩)
  apply String.ext
  simp [pathSplit, hk]

/-- C3: with only an input path `p`, the output path `main` resolves (and the
only path it can open) is `b ++ ".html"`, where `p` splits as a directory
prefix followed by `b`, the prefix is empty or ends in `/`, `b` holds no `/`
(so `b` is what follows the last `/`, and all of `p` when `p` has none); the
resolved output path holds no `/` either. -/
theorem C3_default_output_is_base_name (toHTML : Bytes → Bytes) (prog p : String) (fs : FS) :
    outfilename [prog, p] p = (pathSplit p).2 ++ ".html" ∧
      '/' ∉ (outfilename [prog, p] p).data ∧
      p = (pathSplit p).1 ++ (pathSplit p).2 ∧
      ((pathSplit p).1 = "" ∨ ∃ d : List Char, (pathSplit p).1.data = d ++ ['/']) ∧
      '/' ∉ (pathSplit p).2.data ∧
      ('/' ∈ p.data ∨ (pathSplit p).2 = p) ∧
      (openedPaths (main toHTML [prog, p] fs) = [] ∨
        openedPaths (main toHTML [prog, p] fs) = [(pathSplit p).2 ++ ".html"]) := by
  have hname : outfilename [prog, p] p = (pathSplit p).2 ++ ".html" :=
    outfilename_not_three prog p [] (by simp)
  refine ⟨hname, ?_, (pathSplit_append p).symm, pathSplit_dir_shape p,
    pathSplit_file_no_slash p, ?_, ?_⟩
  · rw [hname, String.data_append]
    intro hmem
    rcases List.mem_append.1 hmem with h | h
    · exact pathSplit_file_no_slash p h
    · revert h
      decide
  · by_cases h : '/' ∈ p.data
    · exact Or.inl h
    · exact Or.inr (pathSplit_no_slash p h)
  · cases hr : readFile fs p with
    | error e =>
      left
      cases hx : fileExists fs p with
      | false => rw [main_stat_fails toHTML prog p [] fs hx]; simp [openedPaths]
      | true => rw [main_read_fails toHTML prog p [] fs e hx hr]; simp [openedPaths]
    | ok md =>
      right
      rw [openedPaths_of_read toHTML prog p [] fs md hr, hname]

end Md2html
